import Mathlib

/-!
Verification of the LLM orchestration and verdict-resolution core of the
trip-planner repository, as a shallow embedding in Lean 4.

The embedding covers:
* `scripts/langchain/verdict_policy.py` — deterministic verdict policy resolution;
* `scripts/langchain/structured_output.py` — schema validation with one bounded repair;
* `tools/llm_provider.py` — the confidence calibrator and the provider fallback chain;
* `tools/langchain_client.py` — slot-ordered backend resolution.

Python floats are modelled as `ℚ`, Python strings as `String` (code-point
lexicographic comparison, as in Python; ASCII fragment for case folding and
whitespace), machine-level I/O (environment variables, config files, network
clients) as explicit parameters.  Rational comparisons are routed through
executable `Bool` comparators built from integer arithmetic so that every
definition evaluates by `decide`; a raised Python exception is modelled as
`Except.error`.
-/

/-- Executable strict comparison on `ℚ` (cross multiplication; denominators
are positive).  Agrees with `<` by `Rat.lt_def`. -/
def ratLtB (a b : ℚ) : Bool :=
  decide (a.num * (b.den : ℤ) < b.num * (a.den : ℤ))

/-- Python `min(a, b)`: keeps `a` unless `b` is strictly smaller. -/
def ratMin (a b : ℚ) : ℚ := if ratLtB b a then b else a

/-- Python `max(a, b)`: keeps `a` unless `b` is strictly greater. -/
def ratMax (a b : ℚ) : ℚ := if ratLtB a b then b else a

/-- Python whitespace for `str.strip()` (ASCII fragment). -/
def isPyWs (c : Char) : Bool :=
  c.val = 32 || c.val = 9 || c.val = 10 || c.val = 13 || c.val = 11 || c.val = 12

/-- Python `str.strip()` on the character list. -/
def trimChars (l : List Char) : List Char :=
  ((l.dropWhile isPyWs).reverse.dropWhile isPyWs).reverse

/-- Python `str.lower()` on the character list (ASCII fragment). -/
def lowerChars (l : List Char) : List Char :=
  l.map Char.toLower

/-- Python `str.startswith` on character lists. -/
def startsChars : List Char → List Char → Bool
  | _, [] => true
  | [], _ :: _ => false
  | a :: as, b :: bs => a = b && startsChars as bs

/-- Python `needle in haystack` substring test on character lists. -/
def hasSub (ndl : List Char) : List Char → Bool
  | [] => ndl.isEmpty
  | c :: t => startsChars (c :: t) ndl || hasSub ndl t

namespace VerdictPolicy

/-- Severity table `VERDICT_SEVERITY` with the `.get(·, 0)` default used by the code. -/
def verdict_severity (kind : String) : Nat :=
  if kind = "unknown" then 0
  else if kind = "pass" then 1
  else if kind = "concerns" then 2
  else if kind = "fail" then 3
  else 0

/-- Threshold `CONCERNS_NEEDS_HUMAN_THRESHOLD = 0.85` (kernel-reducible form). -/
def concerns_needs_human_threshold : ℚ := mkRat 85 100

/-- `_classify_verdict`: strip, lowercase, then classify by leading keyword. -/
def classify_verdict (verdict : String) : String :=
  let v := lowerChars (trimChars verdict.data)
  if v = [] then "unknown"
  else if startsChars v "pass".data then "pass"
  else if startsChars v "concerns".data then "concerns"
  else if startsChars v "fail".data then "fail"
  else "unknown"

/-- `_normalize_confidence`: clamp non-positive to 0, keep (0,1], divide >1 by 100.
`value ≤ 0` is rendered as the negation of the executable `0 < value`. -/
def normalize_confidence (value : ℚ) : ℚ :=
  if ratLtB 0 value then (if ratLtB 1 value then value / 100 else value)
  else 0

/-- `ProviderVerdict` dataclass. -/
structure ProviderVerdict where
  provider : String
  model : String
  verdict : String
  confidence : ℚ
  deriving DecidableEq, Repr

/-- Python string `<`: code-point lexicographic comparison of character lists. -/
def chars_lt : List Char → List Char → Bool
  | [], [] => false
  | [], _ :: _ => true
  | _ :: _, [] => false
  | a :: as, b :: bs =>
    if a.toNat < b.toNat then true
    else if b.toNat < a.toNat then false
    else chars_lt as bs

/-- The comparison key used by the `worst`-policy `max` call: severity of the
classified verdict, normalized confidence, then the lowercased provider,
model and verdict strings. -/
structure WKey where
  sev : Nat
  conf : ℚ
  prov : List Char
  model : List Char
  verd : List Char
  deriving DecidableEq

/-- Key of one entry under the `worst` policy (the 5-tuple in `_select_deterministic`). -/
def wkey (p : ProviderVerdict) : WKey :=
  { sev := verdict_severity (classify_verdict p.verdict)
    conf := normalize_confidence p.confidence
    prov := lowerChars p.provider.data
    model := lowerChars p.model.data
    verd := lowerChars p.verdict.data }

/-- Key of one entry inside the winning `majority` bucket (the 4-tuple without
severity; a constant severity component yields the identical order). -/
def mkey (p : ProviderVerdict) : WKey :=
  { sev := 0
    conf := normalize_confidence p.confidence
    prov := lowerChars p.provider.data
    model := lowerChars p.model.data
    verd := lowerChars p.verdict.data }

/-- One level of Python tuple `<`: the head components decide unless they are
tied, in which case the rest of the tuple decides. -/
def lexB {α β : Type} (f : α → α → Bool) (g : β → β → Bool) (a b : α × β) : Bool :=
  if f a.1 b.1 then true
  else if f b.1 a.1 then false
  else g a.2 b.2

/-- Executable `<` on `Nat`. -/
def natLtB (a b : Nat) : Bool := decide (a < b)

/-- The key as a right-nested tuple, mirroring the Python tuple. -/
def wtup (k : WKey) : Nat × (ℚ × (List Char × (List Char × List Char))) :=
  (k.sev, k.conf, k.prov, k.model, k.verd)

/-- Python tuple `<` on the comparison key: first strictly-ordered component decides. -/
def kLt (a b : WKey) : Bool :=
  lexB natLtB
    (lexB ratLtB (lexB chars_lt (lexB chars_lt chars_lt)))
    (wtup a) (wtup b)

/-- Python `max(xs, key=k)`: fold keeping the current element unless the next
one has a strictly greater key, so the first maximal element wins ties. -/
def pyFoldMax {α : Type} (k : α → WKey) (x : α) (xs : List α) : α :=
  xs.foldl (fun acc y => if kLt (k acc) (k y) then y else acc) x

/-- The `worst` branch of `_select_deterministic`. -/
def selectWorst : List ProviderVerdict → Option ProviderVerdict
  | [] => none
  | x :: xs => some (pyFoldMax wkey x xs)

/-- Bucket kinds in first-insertion order (Python dict insertion order). -/
def kindsInOrder (l : List ProviderVerdict) : List String :=
  l.foldl
    (fun acc p =>
      let k := classify_verdict p.verdict
      if acc.contains k then acc else acc ++ [k])
    []

/-- One bucket of the majority grouping. -/
def bucketOf (l : List ProviderVerdict) (kind : String) : List ProviderVerdict :=
  l.filter (fun p => classify_verdict p.verdict = kind)

/-- Lexicographic `<` on `(bucket size, severity)` pairs used to pick the majority kind. -/
def pairLt (a b : Nat × Nat) : Bool :=
  if a.1 < b.1 then true
  else if b.1 < a.1 then false
  else decide (a.2 < b.2)

/-- Python `max(buckets.items(), key=...)` over kinds in insertion order. -/
def pyFoldMaxPair (k : String → Nat × Nat) (x : String) (xs : List String) : String :=
  xs.foldl (fun acc y => if pairLt (k acc) (k y) then y else acc) x

/-- The `majority` branch of `_select_deterministic`. -/
def selectMajority (l : List ProviderVerdict) : Option ProviderVerdict :=
  match kindsInOrder l with
  | [] => none
  | k :: ks =>
    let majorityKind :=
      pyFoldMaxPair
        (fun kind => ((bucketOf l kind).length, verdict_severity kind)) k ks
    match bucketOf l majorityKind with
    | [] => none
    | b :: bs => some (pyFoldMax mkey b bs)

/-- `_select_deterministic`: empty input selects nothing; unknown policies raise. -/
def select_deterministic
    (verdicts : List ProviderVerdict) (policy : String) :
    Except String (Option ProviderVerdict) :=
  if verdicts.isEmpty then .ok none
  else if policy = "worst" then .ok (selectWorst verdicts)
  else if policy = "majority" then .ok (selectMajority verdicts)
  else .error ("Unknown policy: " ++ policy)

/-- The running maximum in `_split_pass_concerns`: fold of Python `max` over the
normalized confidences of the `concerns` entries, started at `0.0`. -/
def concernsMaxConf (l : List ProviderVerdict) : ℚ :=
  l.foldl
    (fun acc p =>
      if classify_verdict p.verdict = "concerns"
      then ratMax acc (normalize_confidence p.confidence)
      else acc)
    0

/-- `_split_pass_concerns`. -/
def split_pass_concerns (l : List ProviderVerdict) : Bool × Option ℚ :=
  if l.isEmpty then (false, none)
  else
    let kinds := l.map (fun p => classify_verdict p.verdict)
    let hasPass := kinds.contains "pass"
    let hasConcerns := kinds.contains "concerns"
    if hasPass && hasConcerns then (true, some (concernsMaxConf l))
    else (false, none)

/-- Two-decimal rendering of a (non-negative) rational, for the reason string. -/
def fmt2 (x : ℚ) : String :=
  let n : Int := Rat.floor (x * 100 + 1 / 2)
  let frac : Int := n % 100
  toString (n / 100) ++ "." ++
    (if frac < 10 then "0" ++ toString frac else toString frac)

/-- The needs-human reason string built by `evaluate_verdict_policy`. -/
def needs_human_reason_text (confidenceValue : ℚ) : String :=
  "Provider verdicts split with low-confidence concerns; dissenting confidence " ++
    fmt2 confidenceValue ++ " < 0.85. " ++
    "Requires human review before starting another automated follow-up."

/-- `VerdictPolicyResult` dataclass. -/
structure VerdictPolicyResult where
  verdict : String
  verdict_kind : String
  policy : String
  needs_human : Bool
  needs_human_reason : String
  selected_provider : Option String
  selected_model : Option String
  selected_confidence : Option ℚ
  split_verdict : Bool
  concerns_confidence : Option ℚ
  providers : List ProviderVerdict

/-- `evaluate_verdict_policy`. -/
def evaluate_verdict_policy
    (verdicts : List ProviderVerdict) (policy : String) :
    Except String VerdictPolicyResult :=
  match select_deterministic verdicts policy with
  | .error e => .error e
  | .ok selected =>
    let (splitVerdict, concernsConfidence) := split_pass_concerns verdicts
    let confidenceValue := concernsConfidence.getD 0
    let fires := splitVerdict && ratLtB confidenceValue concerns_needs_human_threshold
    let needsHumanReason :=
      if fires then needs_human_reason_text confidenceValue else ""
    match selected with
    | none =>
      .ok
        { verdict := "Unknown"
          verdict_kind := "unknown"
          policy := policy
          needs_human := fires
          needs_human_reason := needsHumanReason
          selected_provider := none
          selected_model := none
          selected_confidence := none
          split_verdict := splitVerdict
          concerns_confidence := concernsConfidence
          providers := verdicts }
    | some s =>
      let verdictText :=
        if trimChars s.verdict.data = [] then "Unknown"
        else String.mk (trimChars s.verdict.data)
      .ok
        { verdict := verdictText
          verdict_kind := classify_verdict verdictText
          policy := policy
          needs_human := fires
          needs_human_reason := needsHumanReason
          selected_provider := some s.provider
          selected_model := some s.model
          selected_confidence := some (normalize_confidence s.confidence)
          split_verdict := splitVerdict
          concerns_confidence := concernsConfidence
          providers := verdicts }

end VerdictPolicy

namespace StructuredOutput

/-- `StructuredOutputResult` dataclass; `error_stage` is `none` on success. -/
structure StructuredOutputResult (T : Type) where
  payload : Option T
  raw_content : Option String
  error_stage : Option String
  error_detail : Option String
  repair_attempts_used : Nat
  deriving DecidableEq, Repr

/-- A pydantic model: its JSON schema text and `model_validate_json`, which
either returns a payload or raises with a formatted error detail. -/
structure SchemaModel (T : Type) where
  schema_text : String
  validate : String → Except String T

/-- The repair callback: takes schema JSON, validation errors and the raw
response; returns the repaired text or `none` (no usable repair). -/
def RepairFn : Type := String → String → String → Option String

/-- `clamp_repair_attempts`: `min(MAX, max(MIN, int(n)))` with MIN = 0, MAX = 1,
written with executable integer comparisons. -/
def clamp_repair_attempts (n : Int) : Int :=
  let m : Int := if 0 < n then n else 0
  if m < 1 then m else 1

/-- `_invoke_repair_loop`.  The second component counts how many times the
repair callback (one extra LLM round-trip) is invoked. -/
def invoke_repair_loop {T : Type}
    (repair : Option RepairFn) (attempts : Int) (m : SchemaModel T)
    (error_detail content : String) :
    StructuredOutputResult T × Nat :=
  match repair with
  | none =>
    (⟨none, none, some "validation", some error_detail, 0⟩, 0)
  | some r =>
    if attempts = 0 then
      (⟨none, none, some "validation", some error_detail, 0⟩, 0)
    else
      match r m.schema_text error_detail content with
      | none =>
        (⟨none, none, some "repair_unavailable", some error_detail, 1⟩, 1)
      | some repaired =>
        if repaired = "" then
          (⟨none, none, some "repair_unavailable", some error_detail, 1⟩, 1)
        else
          match m.validate repaired with
          | .ok payload =>
            (⟨some payload, some repaired, none, none, 1⟩, 1)
          | .error repair_detail =>
            (⟨none, none, some "repair_validation", some repair_detail, 1⟩, 1)

/-- `parse_structured_output`.  The second component counts repair-callback
invocations, i.e. LLM calls beyond the original one. -/
def parse_structured_output {T : Type}
    (content : String) (m : SchemaModel T)
    (repair : Option RepairFn) (max_repair_attempts : Int) :
    StructuredOutputResult T × Nat :=
  match m.validate content with
  | .ok payload => (⟨some payload, some content, none, none, 0⟩, 0)
  | .error error_detail =>
    invoke_repair_loop repair (clamp_repair_attempts max_repair_attempts) m
      error_detail content

end StructuredOutput

namespace LlmProvider

/-- `SessionQualityContext` dataclass with its defaults. -/
structure SessionQualityContext where
  has_agent_messages : Bool := false
  has_work_evidence : Bool := false
  file_change_count : Int := 0
  successful_command_count : Int := 0
  estimated_effort_score : Int := 0
  data_quality : String := "unknown"
  analysis_text_length : Int := 0
  deriving Repr

/-- Whole-percent rendering used inside warning strings. -/
def fmtPct (x : ℚ) : String :=
  toString (Rat.floor (x * 100 + 1 / 2)) ++ "%"

/-- Warning of BS-detection rule 1. -/
def rule1_warning (raw : ℚ) (q : SessionQualityContext) : String :=
  "High confidence (" ++ fmtPct raw ++ ") but no tasks detected despite " ++
    toString q.file_change_count ++ " file changes and " ++
    toString q.successful_command_count ++ " successful commands"

/-- Warning of BS-detection rule 2. -/
def rule2_warning (q : SessionQualityContext) : String :=
  "Analysis text suspiciously short (" ++ toString q.analysis_text_length ++
    " chars) - possible data loss in pipeline"

/-- Warning of BS-detection rule 3. -/
def rule3_warning (q : SessionQualityContext) : String :=
  "Effort score (" ++ toString q.estimated_effort_score ++
    ") suggests work was done but no tasks detected"

/-- Warning of BS-detection rule 4 (source text uses quotes around no evidence). -/
def rule4_warning : String :=
  "LLM claims no evidence but session has file changes/commands"

/-- Warning of BS-detection rule 5. -/
def rule5_warning (raw cap : ℚ) (q : SessionQualityContext) : String :=
  "Confidence capped from " ++ fmtPct raw ++ " to " ++ fmtPct cap ++
    " due to " ++ q.data_quality ++ " data quality"

/-- The `no_evidence_phrases` list of rule 4. -/
def no_evidence_phrases : List String :=
  ["no evidence", "no work", "nothing done", "no specific"]

/-- `quality_caps.get(data_quality, 0.5)` of rule 5. -/
def quality_caps (dq : String) : ℚ :=
  if dq = "high" then 1
  else if dq = "medium" then mkRat 8 10
  else if dq = "low" then mkRat 6 10
  else if dq = "minimal" then mkRat 4 10
  else mkRat 5 10

/-- The initial sanity clamp `max(0.0, min(1.0, confidence))`. -/
def clamp01 (raw : ℚ) : ℚ := ratMax 0 (ratMin 1 raw)

/-- One capping rule: `confidence = min(confidence, cap)` when it fires. -/
def rule_step (fire : Bool) (cap c : ℚ) : ℚ :=
  if fire then ratMin c cap else c

/-- Firing condition of BS-detection rule 1. -/
def fire1B (raw : ℚ) (completed_count in_progress_count : Nat)
    (q : SessionQualityContext) : Bool :=
  ratLtB (mkRat 7 10) raw && completed_count == 0 &&
    in_progress_count == 0 && q.has_work_evidence

/-- Firing condition of BS-detection rule 2. -/
def fire2B (q : SessionQualityContext) : Bool :=
  decide (q.analysis_text_length < 200)

/-- Firing condition of BS-detection rule 3. -/
def fire3B (completed_count in_progress_count : Nat)
    (q : SessionQualityContext) : Bool :=
  decide (30 < q.estimated_effort_score) && completed_count == 0 &&
    in_progress_count == 0

/-- Firing condition of BS-detection rule 4. -/
def fire4B (q : SessionQualityContext) (reasoning : String) : Bool :=
  (no_evidence_phrases.any
    (fun p => hasSub p.data (lowerChars reasoning.data))) && q.has_work_evidence

/-- BS-detection rules 1–4 of `_validate_confidence`, applied after the
initial clamp; returns the running confidence and the warnings in order. -/
def calibration_rules (raw : ℚ) (completed_count in_progress_count : Nat)
    (q : SessionQualityContext) (reasoning : String) : ℚ × List String :=
  (rule_step (fire4B q reasoning) (mkRat 35 100)
    (rule_step (fire3B completed_count in_progress_count q) (mkRat 4 10)
      (rule_step (fire2B q) (mkRat 4 10)
        (rule_step (fire1B raw completed_count in_progress_count q) (mkRat 3 10)
          (clamp01 raw)))),
   (if fire1B raw completed_count in_progress_count q
      then [rule1_warning raw q] else []) ++
   (if fire2B q then [rule2_warning q] else []) ++
   (if fire3B completed_count in_progress_count q then [rule3_warning q] else []) ++
   (if fire4B q reasoning then [rule4_warning] else []))

/-- `GitHubModelsProvider._validate_confidence`: clamp, return early without a
quality context, else apply rules 1–4 and the final data-quality ceiling. -/
def validate_confidence (raw : ℚ) (completed_count in_progress_count : Nat)
    (quality_context : Option SessionQualityContext) (reasoning : String) :
    ℚ × List String :=
  match quality_context with
  | none => (clamp01 raw, [])
  | some q =>
    if ratLtB (quality_caps q.data_quality)
        (calibration_rules raw completed_count in_progress_count q reasoning).1 then
      (quality_caps q.data_quality,
       (calibration_rules raw completed_count in_progress_count q reasoning).2 ++
         [rule5_warning raw (quality_caps q.data_quality) q])
    else calibration_rules raw completed_count in_progress_count q reasoning

/-- One provider of a `FallbackChainProvider`, specialised to one fixed
analysis input: whether `is_available()` holds, and what
`analyze_completion` does there (`Except.error` models a raised exception). -/
structure MProvider (A : Type) where
  available : Bool
  run : Except String A

/-- The loop body of `FallbackChainProvider.analyze_completion`, carrying
`last_error`. -/
def chain_analyze_aux {A : Type} :
    List (MProvider A) → Option String → Except String A
  | [], none => .error "No providers available"
  | [], some e => .error ("All providers failed. Last error: " ++ e)
  | p :: rest, lastError =>
    if p.available then
      match p.run with
      | .ok a => .ok a
      | .error e => chain_analyze_aux rest (some e)
    else chain_analyze_aux rest lastError

/-- `FallbackChainProvider.analyze_completion`: try providers in order,
skipping unavailable ones; a raised `RuntimeError` is `Except.error`. -/
def chain_analyze {A : Type} (ps : List (MProvider A)) : Except String A :=
  chain_analyze_aux ps none

end LlmProvider

namespace LangchainClient

/-- `SlotDefinition` dataclass. -/
structure SlotDefinition where
  name : String
  provider : String
  model : String
  deriving DecidableEq, Repr

/-- The environment `build_chat_client` reads: provider credentials, the
`LANGCHAIN_PROVIDER` / `LANGCHAIN_MODEL` variables, and whether the two
LangChain client classes are importable. -/
structure ClientEnv where
  github_token : Option String
  openai_token : Option String
  anthropic_token : Option String
  env_provider : Option String
  env_model : Option String
  openai_importable : Bool
  anthropic_importable : Bool

/-- Python truthiness of an optional string (`None` and `""` are falsy). -/
def truthy : Option String → Bool
  | none => false
  | some s => !(s == "")

/-- `DEFAULT_MODEL` from `tools/llm_provider.py`. -/
def default_model : String := "gpt-4o"

/-- `_normalize_provider`. -/
def normalize_provider (value : Option String) : Option String :=
  if !truthy value then none
  else
    let n := String.mk (lowerChars (trimChars (value.getD "").data))
    if n = "github" ∨ n = "github_models" ∨ n = "github-models" then
      some "github-models"
    else if n = "anthropic" ∨ n = "claude" then some "anthropic"
    else if n = "openai" then some "openai"
    else none

/-- `_resolve_provider`: returns the normalized provider and whether the
request was explicit. -/
def resolve_provider (provider : Option String) (force_openai : Bool)
    (env : ClientEnv) : Option String × Bool :=
  if force_openai then (some "openai", true)
  else if truthy provider then (normalize_provider provider, true)
  else (normalize_provider env.env_provider, false)

/-- Python `a or b` for an optional string against a string default. -/
def strOr (a : Option String) (b : String) : String :=
  if truthy a then a.getD "" else b

/-- `_resolve_model`: explicit model, else `LANGCHAIN_MODEL`, else the default. -/
def resolve_model (model : Option String) (env : ClientEnv) : String :=
  strOr model (strOr env.env_model default_model)

/-- A resolved handle: the `(provider, model)` binding of `ClientInfo` (the
transport client object itself is opaque and not modelled). -/
structure ClientInfo where
  provider : String
  model : String
  deriving DecidableEq, Repr

/-- Python `model or os.environ.get(ENV_MODEL)` before the auto-select loop. -/
def firstTruthy (a b : Option String) : Option String :=
  if truthy a then a else b

/-- The per-slot model choice inside the auto-select loop. -/
def slot_model_for (modelOverride : Option String) (slot : SlotDefinition) : String :=
  if truthy modelOverride then modelOverride.getD "" else slot.model

/-- Whether a slot's provider is credentialed (and buildable) in `env` —
exactly the guards of the auto-select loop. -/
def cred_ok (env : ClientEnv) (slot : SlotDefinition) : Bool :=
  (slot.provider == "openai" && truthy env.openai_token) ||
  (slot.provider == "anthropic" && truthy env.anthropic_token &&
    env.anthropic_importable) ||
  (slot.provider == "github-models" && truthy env.github_token)

/-- The auto-select loop of `build_chat_client`: first slot whose provider
has a credential wins (slot order = fallback priority). -/
def auto_select (env : ClientEnv) (modelOverride : Option String) :
    List SlotDefinition → Option ClientInfo
  | [] => none
  | slot :: rest =>
    let slotModel := slot_model_for modelOverride slot
    if slot.provider = "openai" ∧ truthy env.openai_token then
      some ⟨"openai", slotModel⟩
    else if slot.provider = "anthropic" ∧ truthy env.anthropic_token ∧
        env.anthropic_importable then
      some ⟨"anthropic", slotModel⟩
    else if slot.provider = "github-models" ∧ truthy env.github_token then
      some ⟨"github-models", slotModel⟩
    else auto_select env modelOverride rest

/-- `build_chat_client`.  The slot list is the result of `_resolve_slots()`
(config-file reading is I/O and therefore a parameter); timeouts and retry
budgets configure only the opaque transport client and are not modelled. -/
def build_chat_client (env : ClientEnv) (slots : List SlotDefinition)
    (model provider : Option String) (force_openai : Bool) : Option ClientInfo :=
  if !env.openai_importable then none
  else if !truthy env.github_token && !truthy env.openai_token &&
      !truthy env.anthropic_token then none
  else
    let selectedModel := resolve_model model env
    let (selectedProvider, providerExplicit) :=
      resolve_provider provider force_openai env
    if providerExplicit ∧ selectedProvider = none then none
    else if selectedProvider = some "github-models" then
      if truthy env.github_token then some ⟨"github-models", selectedModel⟩
      else none
    else if selectedProvider = some "openai" then
      if truthy env.openai_token then some ⟨"openai", selectedModel⟩
      else none
    else if selectedProvider = some "anthropic" then
      if truthy env.anthropic_token ∧ env.anthropic_importable then
        some ⟨"anthropic", selectedModel⟩
      else none
    else auto_select env (firstTruthy model env.env_model) slots

end LangchainClient

/-! ### Order lemmas for the embedded comparators -/

theorem ratLtB_iff (a b : ℚ) : ratLtB a b = true ↔ a < b := by
  simp [ratLtB, Rat.lt_def]

theorem ratLtB_false_iff (a b : ℚ) : ratLtB a b = false ↔ b ≤ a := by
  rw [← not_lt, ← ratLtB_iff]
  simp

theorem ratMin_eq (a b : ℚ) : ratMin a b = min a b := by
  unfold ratMin
  rcases lt_trichotomy b a with h | h | h
  · rw [if_pos ((ratLtB_iff b a).mpr h), min_eq_right h.le]
  · subst h
    simp
  · rw [if_neg, min_eq_left h.le]
    simp [ratLtB_false_iff, h.le]

theorem ratMax_eq (a b : ℚ) : ratMax a b = max a b := by
  unfold ratMax
  rcases lt_trichotomy a b with h | h | h
  · rw [if_pos ((ratLtB_iff a b).mpr h), max_eq_right h.le]
  · subst h
    simp
  · rw [if_neg, max_eq_left h.le]
    simp [ratLtB_false_iff, h.le]

theorem ratMin_le_left (a b : ℚ) : ratMin a b ≤ a := by
  rw [ratMin_eq]; exact min_le_left a b

theorem ratMin_le_right (a b : ℚ) : ratMin a b ≤ b := by
  rw [ratMin_eq]; exact min_le_right a b

theorem le_ratMax_left (a b : ℚ) : a ≤ ratMax a b := by
  rw [ratMax_eq]; exact le_max_left a b

theorem le_ratMax_right (a b : ℚ) : b ≤ ratMax a b := by
  rw [ratMax_eq]; exact le_max_right a b

namespace VerdictPolicy

theorem chars_lt_irrefl (l : List Char) : chars_lt l l = false := by
  induction l with
  | nil => rfl
  | cons a t ih => simp [chars_lt, ih]

theorem chars_lt_trans :
    ∀ (a b c : List Char),
      chars_lt a b = true → chars_lt b c = true → chars_lt a c = true := by
  intro a
  induction a with
  | nil =>
    intro b c hab hbc
    cases b with
    | nil => simp [chars_lt] at hab
    | cons y ys =>
      cases c with
      | nil => simp [chars_lt] at hbc
      | cons z zs => simp [chars_lt]
  | cons x xs ih =>
    intro b c hab hbc
    cases b with
    | nil => simp [chars_lt] at hab
    | cons y ys =>
      cases c with
      | nil => simp [chars_lt] at hbc
      | cons z zs =>
        simp only [chars_lt] at hab hbc ⊢
        by_cases h1 : x.toNat < y.toNat
        · by_cases h2 : y.toNat < z.toNat
          · rw [if_pos (by omega : x.toNat < z.toNat)]
          · by_cases h4 : z.toNat < y.toNat
            · exfalso
              rw [if_neg h2, if_pos h4] at hbc
              exact Bool.false_ne_true hbc
            · rw [if_pos (by omega : x.toNat < z.toNat)]
        · by_cases h3 : y.toNat < x.toNat
          · exfalso
            rw [if_neg h1, if_pos h3] at hab
            exact Bool.false_ne_true hab
          · rw [if_neg h1, if_neg h3] at hab
            by_cases h2 : y.toNat < z.toNat
            · rw [if_pos (by omega : x.toNat < z.toNat)]
            · by_cases h4 : z.toNat < y.toNat
              · exfalso
                rw [if_neg h2, if_pos h4] at hbc
                exact Bool.false_ne_true hbc
              · rw [if_neg h2, if_neg h4] at hbc
                rw [if_neg (by omega : ¬x.toNat < z.toNat),
                  if_neg (by omega : ¬z.toNat < x.toNat)]
                exact ih ys zs hab hbc

theorem chars_lt_conn :
    ∀ (a b : List Char), chars_lt a b = false → chars_lt b a = false → a = b := by
  intro a
  induction a with
  | nil =>
    intro b h1 _
    cases b with
    | nil => rfl
    | cons y ys => simp [chars_lt] at h1
  | cons x xs ih =>
    intro b h1 h2
    cases b with
    | nil => simp [chars_lt] at h2
    | cons y ys =>
      simp only [chars_lt] at h1 h2
      by_cases hxy : x.toNat < y.toNat
      · rw [if_pos hxy] at h1
        exact absurd h1 (by simp)
      · by_cases hyx : y.toNat < x.toNat
        · rw [if_pos hyx] at h2
          exact absurd h2 (by simp)
        · have hval : x.toNat = y.toNat := by omega
          have hx : x = y := Char.ext (UInt32.ext hval)
          rw [if_neg hxy, if_neg hyx] at h1
          rw [if_neg hyx, if_neg hxy] at h2
          rw [hx, ih ys h1 h2]

theorem lexB_irrefl {α β : Type} (f : α → α → Bool) (g : β → β → Bool)
    (hf : ∀ a, f a a = false) (hg : ∀ b, g b b = false) :
    ∀ p : α × β, lexB f g p p = false := by
  intro p
  simp [lexB, hf, hg]

theorem lexB_trans {α β : Type} (f : α → α → Bool) (g : β → β → Bool)
    (hft : ∀ a b c, f a b = true → f b c = true → f a c = true)
    (hfc : ∀ a b, f a b = false → f b a = false → a = b)
    (hgt : ∀ a b c, g a b = true → g b c = true → g a c = true) :
    ∀ p q r, lexB f g p q = true → lexB f g q r = true → lexB f g p r = true := by
  intro p q r h1 h2
  unfold lexB at h1 h2 ⊢
  cases hpq : f p.1 q.1 with
  | true =>
    cases hqr : f q.1 r.1 with
    | true => simp [hft _ _ _ hpq hqr]
    | false =>
      cases hrq : f r.1 q.1 with
      | true => simp [hqr, hrq] at h2
      | false =>
        have hq : q.1 = r.1 := hfc _ _ hqr hrq
        rw [← hq]
        simp [hpq]
  | false =>
    cases hqp : f q.1 p.1 with
    | true => simp [hpq, hqp] at h1
    | false =>
      have hp : p.1 = q.1 := hfc _ _ hpq hqp
      simp only [hpq, hqp] at h1
      simp at h1
      cases hqr : f q.1 r.1 with
      | true => simp [hp, hqr]
      | false =>
        cases hrq : f r.1 q.1 with
        | true => simp [hqr, hrq] at h2
        | false =>
          simp only [hqr, hrq] at h2
          simp at h2
          rw [hp, hqr, hrq]
          simp [hgt _ _ _ h1 h2]

theorem lexB_conn {α β : Type} (f : α → α → Bool) (g : β → β → Bool)
    (hfc : ∀ a b, f a b = false → f b a = false → a = b)
    (hgc : ∀ a b, g a b = false → g b a = false → a = b) :
    ∀ p q, lexB f g p q = false → lexB f g q p = false → p = q := by
  intro p q h1 h2
  unfold lexB at h1 h2
  cases hpq : f p.1 q.1 with
  | true => simp [hpq] at h1
  | false =>
    cases hqp : f q.1 p.1 with
    | true => simp [hqp] at h2
    | false =>
      simp only [hpq, hqp] at h1 h2
      simp at h1 h2
      have e1 := hfc _ _ hpq hqp
      have e2 := hgc _ _ h1 h2
      cases p
      cases q
      simp_all

theorem natLtB_trans :
    ∀ a b c : Nat, natLtB a b = true → natLtB b c = true → natLtB a c = true := by
  intro a b c h1 h2
  simp [natLtB] at *
  omega

theorem natLtB_conn : ∀ a b : Nat, natLtB a b = false → natLtB b a = false → a = b := by
  intro a b h1 h2
  simp [natLtB] at *
  omega

theorem ratLtB_trans :
    ∀ a b c : ℚ, ratLtB a b = true → ratLtB b c = true → ratLtB a c = true := by
  intro a b c h1 h2
  rw [ratLtB_iff] at *
  exact lt_trans h1 h2

theorem ratLtB_conn : ∀ a b : ℚ, ratLtB a b = false → ratLtB b a = false → a = b := by
  intro a b h1 h2
  rw [ratLtB_false_iff] at h1 h2
  exact le_antisymm h2 h1

theorem kLt_irrefl (a : WKey) : kLt a a = false := by
  have hn : ∀ n : Nat, natLtB n n = false := by intro n; simp [natLtB]
  have hr : ∀ q : ℚ, ratLtB q q = false := by
    intro q; rw [ratLtB_false_iff]
  exact
    lexB_irrefl _ _ hn
      (lexB_irrefl _ _ hr
        (lexB_irrefl _ _ chars_lt_irrefl
          (lexB_irrefl _ _ chars_lt_irrefl chars_lt_irrefl)))
      (wtup a)

theorem kLt_trans (a b c : WKey) :
    kLt a b = true → kLt b c = true → kLt a c = true := by
  intro h1 h2
  exact
    lexB_trans _ _ natLtB_trans natLtB_conn
      (lexB_trans _ _ ratLtB_trans ratLtB_conn
        (lexB_trans _ _ chars_lt_trans chars_lt_conn
          (lexB_trans _ _ chars_lt_trans chars_lt_conn chars_lt_trans)))
      (wtup a) (wtup b) (wtup c) h1 h2

theorem kLt_conn (a b : WKey) :
    kLt a b = false → kLt b a = false → a = b := by
  intro h1 h2
  have h :=
    lexB_conn _ _ natLtB_conn
      (lexB_conn _ _ ratLtB_conn
        (lexB_conn _ _ chars_lt_conn
          (lexB_conn _ _ chars_lt_conn chars_lt_conn)))
      (wtup a) (wtup b) h1 h2
  cases a
  cases b
  simpa [wtup, Prod.ext_iff] using h

end VerdictPolicy

theorem bool_not_false {b : Bool} (h : ¬b = false) : b = true := by
  cases b with
  | false => exact absurd rfl h
  | true => rfl

namespace VerdictPolicy

theorem pyFoldMax_mem {α : Type} (k : α → WKey) :
    ∀ (xs : List α) (x : α), pyFoldMax k x xs ∈ x :: xs := by
  intro xs
  induction xs with
  | nil => intro x; simp [pyFoldMax]
  | cons y t ih =>
    intro x
    by_cases hxy : kLt (k x) (k y) = true
    · have hg : pyFoldMax k x (y :: t) = pyFoldMax k y t := by
        show List.foldl _ (if kLt (k x) (k y) then y else x) t = _
        rw [if_pos hxy]
        rfl
      rw [hg]
      have h := ih y
      rcases List.mem_cons.mp h with h1 | h1
      · rw [h1]; simp
      · simp [List.mem_cons, h1]
    · have hg : pyFoldMax k x (y :: t) = pyFoldMax k x t := by
        show List.foldl _ (if kLt (k x) (k y) then y else x) t = _
        rw [if_neg hxy]
        rfl
      rw [hg]
      have h := ih x
      rcases List.mem_cons.mp h with h1 | h1
      · rw [h1]; simp
      · simp [List.mem_cons, h1]

theorem pyFoldMax_not_lt {α : Type} (k : α → WKey) :
    ∀ (xs : List α) (x y : α), y ∈ x :: xs →
      kLt (k (pyFoldMax k x xs)) (k y) = false := by
  intro xs
  induction xs with
  | nil =>
    intro x y hy
    simp at hy
    subst hy
    simp [pyFoldMax, kLt_irrefl]
  | cons z t ih =>
    intro x y hy
    by_cases hxz : kLt (k x) (k z) = true
    · have hg : pyFoldMax k x (z :: t) = pyFoldMax k z t := by
        show List.foldl _ (if kLt (k x) (k z) then z else x) t = _
        rw [if_pos hxz]
        rfl
      rw [hg]
      rcases List.mem_cons.mp hy with h1 | h1
      · subst h1
        by_contra hcon
        have hcon := bool_not_false hcon
        have h2 : kLt (k (pyFoldMax k z t)) (k z) = false :=
          ih z z (List.mem_cons_self z t)
        have h3 := kLt_trans _ _ _ hcon hxz
        rw [h3] at h2
        exact absurd h2 (by simp)
      · exact ih z y h1
    · have hg : pyFoldMax k x (z :: t) = pyFoldMax k x t := by
        show List.foldl _ (if kLt (k x) (k z) then z else x) t = _
        rw [if_neg hxz]
        rfl
      rw [hg]
      have hxzf : kLt (k x) (k z) = false := by
        cases hcb : kLt (k x) (k z) with
        | false => rfl
        | true => exact absurd hcb hxz
      rcases List.mem_cons.mp hy with h1 | h1
      · subst h1
        exact ih _ _ (List.mem_cons_self _ t)
      · rcases List.mem_cons.mp h1 with h2 | h2
        · subst h2
          have hrx : kLt (k (pyFoldMax k x t)) (k x) = false :=
            ih x x (List.mem_cons_self x t)
          by_contra hcon
          have hcon := bool_not_false hcon
          by_cases hzx : kLt (k y) (k x) = true
          · have h3 := kLt_trans _ _ _ hcon hzx
            rw [h3] at hrx
            exact absurd hrx (by simp)
          · have hzxf : kLt (k y) (k x) = false := by
              cases hcb : kLt (k y) (k x) with
              | false => rfl
              | true => exact absurd hcb hzx
            have hk : k x = k y := kLt_conn _ _ hxzf hzxf
            rw [← hk] at hcon
            rw [hcon] at hrx
            exact absurd hrx (by simp)
        · exact ih x y (List.mem_cons_of_mem x h2)

theorem selectWorst_mem_max (l : List ProviderVerdict) (s : ProviderVerdict)
    (h : selectWorst l = some s) :
    s ∈ l ∧ ∀ x ∈ l, kLt (wkey s) (wkey x) = false := by
  cases l with
  | nil => simp [selectWorst] at h
  | cons a t =>
    simp only [selectWorst, Option.some.injEq] at h
    subst h
    exact ⟨pyFoldMax_mem wkey t a, fun x hx => pyFoldMax_not_lt wkey t a x hx⟩

theorem selectWorst_perm (l l' : List ProviderVerdict) (hp : l.Perm l')
    (hd : l.Pairwise (fun a b => wkey a ≠ wkey b)) :
    selectWorst l = selectWorst l' := by
  cases hl : selectWorst l with
  | none =>
    cases l with
    | nil =>
      have hnil : l' = [] := hp.symm.eq_nil
      rw [hnil]
      rfl
    | cons a t => simp [selectWorst] at hl
  | some s =>
    have hmem := selectWorst_mem_max l s hl
    cases hl' : selectWorst l' with
    | none =>
      cases hll : l' with
      | nil =>
        exfalso
        rw [hll] at hp
        have : l = [] := hp.eq_nil
        rw [this] at hl
        simp [selectWorst] at hl
      | cons b u =>
        rw [hll] at hl'
        simp [selectWorst] at hl'
    | some s2 =>
      have hmem2 := selectWorst_mem_max l' s2 hl'
      have hs2l : s2 ∈ l := hp.mem_iff.mpr hmem2.1
      have hsl' : s ∈ l' := hp.mem_iff.mp hmem.1
      have h1 : kLt (wkey s) (wkey s2) = false := hmem.2 s2 hs2l
      have h2 : kLt (wkey s2) (wkey s) = false := hmem2.2 s hsl'
      have hk : wkey s = wkey s2 := kLt_conn _ _ h1 h2
      by_cases hss : s = s2
      · rw [hss]
      · exfalso
        have hsym : Symmetric (fun a b : ProviderVerdict => wkey a ≠ wkey b) :=
          fun a b h e => h e.symm
        exact List.Pairwise.forall hsym hd hmem.1 hs2l hss hk

end VerdictPolicy

namespace VerdictPolicy

theorem ratLtB_self (a : ℚ) : ratLtB a a = false :=
  (ratLtB_false_iff a a).mpr le_rfl

theorem threshold_eq : concerns_needs_human_threshold = 85 / 100 := by
  unfold concerns_needs_human_threshold
  rw [Rat.mkRat_eq_divInt, Rat.divInt_eq_div]
  norm_num

theorem select_deterministic_worst (l : List ProviderVerdict) :
    select_deterministic l "worst" = .ok (selectWorst l) := by
  unfold select_deterministic
  by_cases h : l.isEmpty
  · rw [if_pos h]
    have hnil : l = [] := List.isEmpty_iff.mp h
    subst hnil
    rfl
  · rw [if_neg h]
    simp

theorem select_deterministic_majority (l : List ProviderVerdict) :
    select_deterministic l "majority" = .ok (selectMajority l) := by
  unfold select_deterministic
  by_cases h : l.isEmpty
  · rw [if_pos h]
    have hnil : l = [] := List.isEmpty_iff.mp h
    subst hnil
    rfl
  · rw [if_neg h]
    simp

theorem needs_human_reason_text_ne (c : ℚ) : needs_human_reason_text c ≠ "" := by
  intro h
  have hd := congrArg String.data h
  unfold needs_human_reason_text at hd
  rw [String.data_append, String.data_append, String.data_append] at hd
  have h1 :=
    (List.append_eq_nil.mp
      ((List.append_eq_nil.mp ((List.append_eq_nil.mp hd).1)).1)).1
  revert h1
  decide

theorem evaluate_fields (l : List ProviderVerdict) (policy : String)
    (sel : Option ProviderVerdict)
    (hsel : select_deterministic l policy = .ok sel) :
    ∃ r, evaluate_verdict_policy l policy = .ok r ∧
      r.providers = l ∧
      r.policy = policy ∧
      r.split_verdict = (split_pass_concerns l).1 ∧
      r.concerns_confidence = (split_pass_concerns l).2 ∧
      r.needs_human = ((split_pass_concerns l).1 &&
        ratLtB ((split_pass_concerns l).2.getD 0) concerns_needs_human_threshold) ∧
      r.needs_human_reason = (if ((split_pass_concerns l).1 &&
          ratLtB ((split_pass_concerns l).2.getD 0) concerns_needs_human_threshold)
        then needs_human_reason_text ((split_pass_concerns l).2.getD 0) else "") ∧
      r.selected_provider = sel.map (fun p => p.provider) ∧
      r.selected_model = sel.map (fun p => p.model) ∧
      r.selected_confidence = sel.map (fun p => normalize_confidence p.confidence) := by
  unfold evaluate_verdict_policy
  rw [hsel]
  rcases hsp : split_pass_concerns l with ⟨sv, cc⟩
  cases sel with
  | none =>
    refine ⟨_, rfl, rfl, rfl, ?_, ?_, ?_, ?_, rfl, rfl, rfl⟩ <;> simp [hsp]
  | some s =>
    refine ⟨_, rfl, rfl, rfl, ?_, ?_, ?_, ?_, rfl, rfl, rfl⟩ <;> simp [hsp]

end VerdictPolicy

namespace VerdictPolicy

theorem concernsFold_le (l : List ProviderVerdict) :
    ∀ acc : ℚ, acc ≤ List.foldl
      (fun acc p =>
        if classify_verdict p.verdict = "concerns"
        then ratMax acc (normalize_confidence p.confidence)
        else acc)
      acc l := by
  induction l with
  | nil => intro acc; simp
  | cons p t ih =>
    intro acc
    rw [List.foldl_cons]
    refine le_trans ?_ (ih _)
    by_cases h : classify_verdict p.verdict = "concerns"
    · rw [if_pos h]
      exact le_ratMax_left _ _
    · rw [if_neg h]

theorem concernsFold_ge (l : List ProviderVerdict) :
    ∀ (acc : ℚ) (x : ProviderVerdict), x ∈ l →
      classify_verdict x.verdict = "concerns" →
      normalize_confidence x.confidence ≤ List.foldl
        (fun acc p =>
          if classify_verdict p.verdict = "concerns"
          then ratMax acc (normalize_confidence p.confidence)
          else acc)
        acc l := by
  induction l with
  | nil => intro acc x hx; simp at hx
  | cons p t ih =>
    intro acc x hx hk
    rw [List.foldl_cons]
    rcases List.mem_cons.mp hx with h1 | h1
    · subst h1
      refine le_trans ?_ (concernsFold_le t _)
      rw [if_pos hk]
      exact le_ratMax_right _ _
    · exact ih _ x h1 hk

theorem concernsMaxConf_nonneg (l : List ProviderVerdict) : 0 ≤ concernsMaxConf l :=
  concernsFold_le l 0

theorem concernsMaxConf_ge (l : List ProviderVerdict) (x : ProviderVerdict)
    (hx : x ∈ l) (hk : classify_verdict x.verdict = "concerns") :
    normalize_confidence x.confidence ≤ concernsMaxConf l :=
  concernsFold_ge l 0 x hx hk

theorem split_pass_concerns_of_mixed (l : List ProviderVerdict)
    (hp : ∃ p ∈ l, classify_verdict p.verdict = "pass")
    (hc : ∃ c ∈ l, classify_verdict c.verdict = "concerns") :
    split_pass_concerns l = (true, some (concernsMaxConf l)) := by
  obtain ⟨p, hpmem, hpk⟩ := hp
  obtain ⟨c, hcmem, hck⟩ := hc
  unfold split_pass_concerns
  have hne : l.isEmpty = false := by
    cases l with
    | nil => simp at hpmem
    | cons a t => rfl
  rw [hne]
  have hpass : (l.map (fun p => classify_verdict p.verdict)).contains "pass" = true := by
    rw [List.contains_iff_exists_mem_beq]
    exact ⟨"pass", List.mem_map.mpr ⟨p, hpmem, hpk⟩, by simp⟩
  have hconc :
      (l.map (fun p => classify_verdict p.verdict)).contains "concerns" = true := by
    rw [List.contains_iff_exists_mem_beq]
    exact ⟨"concerns", List.mem_map.mpr ⟨c, hcmem, hck⟩, by simp⟩
  simp only [hpass, hconc]
  simp

end VerdictPolicy

namespace VerdictPolicy

/-- C1 (counterexample): two `fail` entries tied on severity, confidence and
model; from either input order the `worst` policy selects provider `"b"` —
the lexicographically larger name — not `"a"` as the claim states. -/
theorem c1_counterexample :
    (evaluate_verdict_policy
        [⟨"a", "m", "fail", 1⟩, ⟨"b", "m", "fail", 1⟩] "worst").toOption.map
      (fun r => r.selected_provider) = some (some "b") ∧
    (evaluate_verdict_policy
        [⟨"b", "m", "fail", 1⟩, ⟨"a", "m", "fail", 1⟩] "worst").toOption.map
      (fun r => r.selected_provider) = some (some "b") := by
  constructor
  · decide
  · decide

/-- C1 (amended): under the `worst` policy the selected entry is an element of
the input that is maximal for the key (severity, normalized confidence,
lowercased provider, model, verdict) — among entries tied on severity and
confidence the lexicographically larger lowercased provider wins — the
selection is reflected in the result's `selected_provider`, and it is
independent of the input order whenever no two entries share the whole key. -/
theorem c1_worst_policy_selection :
    (∀ (l : List ProviderVerdict) (s : ProviderVerdict),
      selectWorst l = some s →
        s ∈ l ∧ ∀ x ∈ l, kLt (wkey s) (wkey x) = false) ∧
    (∀ (l : List ProviderVerdict) (s x : ProviderVerdict),
      selectWorst l = some s → x ∈ l →
        (wkey x).sev = (wkey s).sev → (wkey x).conf = (wkey s).conf →
        chars_lt (wkey s).prov (wkey x).prov = false) ∧
    (∀ (l l' : List ProviderVerdict), l.Perm l' →
      l.Pairwise (fun a b => wkey a ≠ wkey b) →
        selectWorst l = selectWorst l') ∧
    (∀ l : List ProviderVerdict, ∃ r,
      evaluate_verdict_policy l "worst" = .ok r ∧
        r.selected_provider = (selectWorst l).map (fun p => p.provider)) := by
  refine ⟨selectWorst_mem_max, ?_, selectWorst_perm, ?_⟩
  · intro l s x hsel hx hsev hconf
    have hmax := (selectWorst_mem_max l s hsel).2 x hx
    by_contra hcon
    have hcon := bool_not_false hcon
    have hlt : kLt (wkey s) (wkey x) = true := by
      unfold kLt lexB
      simp only [wtup]
      rw [hsev, hconf]
      simp [natLtB, ratLtB_self, hcon]
    rw [hlt] at hmax
    exact absurd hmax (by simp)
  · intro l
    obtain ⟨r, hr, _, _, _, _, _, _, hselprov, _, _⟩ :=
      evaluate_fields l "worst" (selectWorst l) (select_deterministic_worst l)
    exact ⟨r, hr, hselprov⟩

/-- C4: with at least one `pass` and one `concerns` entry, the result records
the split, carries the maximum normalized concerns confidence, and escalates
to a human with a non-empty reason exactly when that maximum is below 0.85;
the two concrete examples of the spec behave as stated. -/
theorem c4_split_verdict_escalation :
    (∀ (l : List ProviderVerdict) (policy : String),
      policy = "worst" ∨ policy = "majority" →
      (∃ p ∈ l, classify_verdict p.verdict = "pass") →
      (∃ c ∈ l, classify_verdict c.verdict = "concerns") →
      ∃ r, evaluate_verdict_policy l policy = .ok r ∧
        r.split_verdict = true ∧
        r.concerns_confidence = some (concernsMaxConf l) ∧
        (∀ x ∈ l, classify_verdict x.verdict = "concerns" →
          normalize_confidence x.confidence ≤ concernsMaxConf l) ∧
        ((r.needs_human = true ∧ r.needs_human_reason ≠ "") ↔
          concernsMaxConf l < 85 / 100) ∧
        (¬concernsMaxConf l < 85 / 100 →
          r.needs_human = false ∧ r.needs_human_reason = "")) ∧
    ((evaluate_verdict_policy
        [⟨"x", "", "pass", mkRat 9 10⟩, ⟨"y", "", "concerns", mkRat 1 2⟩]
        "worst").toOption.map
      (fun r => (r.verdict_kind, r.needs_human)) = some ("concerns", true)) ∧
    ((evaluate_verdict_policy
        [⟨"x", "", "pass", mkRat 9 10⟩, ⟨"y", "", "concerns", mkRat 9 10⟩]
        "worst").toOption.map
      (fun r => (r.verdict_kind, r.needs_human)) = some ("concerns", false)) := by
  refine ⟨?_, by decide, by decide⟩
  intro l policy hpol hp hc
  have hselex : ∃ sel, select_deterministic l policy = .ok sel := by
    rcases hpol with h | h
    · subst h; exact ⟨_, select_deterministic_worst l⟩
    · subst h; exact ⟨_, select_deterministic_majority l⟩
  obtain ⟨sel, hsel⟩ := hselex
  obtain ⟨r, hr, _, _, hsplit, hcc, hnh, hreason, _, _, _⟩ :=
    evaluate_fields l policy sel hsel
  have hsp := split_pass_concerns_of_mixed l hp hc
  refine ⟨r, hr, ?_, ?_, ?_, ?_, ?_⟩
  · rw [hsplit, hsp]
  · rw [hcc, hsp]
  · intro x hx hk
    exact concernsMaxConf_ge l x hx hk
  · rw [hnh, hreason, hsp]
    simp only [Option.getD_some, Bool.true_and]
    constructor
    · rintro ⟨h1, _⟩
      have := (ratLtB_iff _ _).mp h1
      rwa [threshold_eq] at this
    · intro h
      have hb : ratLtB (concernsMaxConf l) concerns_needs_human_threshold = true :=
        (ratLtB_iff _ _).mpr (by rw [threshold_eq]; exact h)
      refine ⟨hb, ?_⟩
      rw [if_pos hb]
      exact needs_human_reason_text_ne _
  · intro h
    have hb : ratLtB (concernsMaxConf l) concerns_needs_human_threshold = false :=
      (ratLtB_false_iff _ _).mpr (by rw [threshold_eq]; exact not_lt.mp h)
    rw [hnh, hreason, hsp]
    simp [hb]

/-- C4 (witness): the general escalation statement applied to the spec's
concrete split-verdict input. -/
theorem c4_witness :
    ∃ r, evaluate_verdict_policy
        [⟨"x", "", "pass", mkRat 9 10⟩, ⟨"y", "", "concerns", mkRat 1 2⟩]
        "worst" = .ok r ∧
      r.split_verdict = true ∧
      r.concerns_confidence = some (concernsMaxConf
        [⟨"x", "", "pass", mkRat 9 10⟩, ⟨"y", "", "concerns", mkRat 1 2⟩]) ∧
      (∀ x ∈ [(⟨"x", "", "pass", mkRat 9 10⟩ : ProviderVerdict),
          ⟨"y", "", "concerns", mkRat 1 2⟩],
        classify_verdict x.verdict = "concerns" →
          normalize_confidence x.confidence ≤ concernsMaxConf
            [⟨"x", "", "pass", mkRat 9 10⟩, ⟨"y", "", "concerns", mkRat 1 2⟩]) ∧
      ((r.needs_human = true ∧ r.needs_human_reason ≠ "") ↔
        concernsMaxConf
          [⟨"x", "", "pass", mkRat 9 10⟩, ⟨"y", "", "concerns", mkRat 1 2⟩] <
            85 / 100) ∧
      (¬concernsMaxConf
          [⟨"x", "", "pass", mkRat 9 10⟩, ⟨"y", "", "concerns", mkRat 1 2⟩] <
            85 / 100 →
        r.needs_human = false ∧ r.needs_human_reason = "") :=
  c4_split_verdict_escalation.1
    [⟨"x", "", "pass", mkRat 9 10⟩, ⟨"y", "", "concerns", mkRat 1 2⟩]
    "worst" (Or.inl rfl) (by decide) (by decide)

end VerdictPolicy

namespace VerdictPolicy

/-- C1 (witness): the amended maximality statement applied to the concrete
tied pair, discharging the selection hypothesis by evaluation. -/
theorem c1_witness :
    (⟨"b", "m", "fail", 1⟩ : ProviderVerdict) ∈
        [(⟨"a", "m", "fail", 1⟩ : ProviderVerdict), ⟨"b", "m", "fail", 1⟩] ∧
      ∀ x ∈ [(⟨"a", "m", "fail", 1⟩ : ProviderVerdict), ⟨"b", "m", "fail", 1⟩],
        kLt (wkey ⟨"b", "m", "fail", 1⟩) (wkey x) = false :=
  c1_worst_policy_selection.1
    [⟨"a", "m", "fail", 1⟩, ⟨"b", "m", "fail", 1⟩]
    ⟨"b", "m", "fail", 1⟩ (by decide)

/-- C9: confidence normalization (≤0 to 0, (0,1] kept, >1 divided by 100) and
its use in the key order, the selected confidence and the audit list, which
keeps the original entries unchanged. -/
theorem c9_confidence_normalization :
    (∀ v : ℚ, v ≤ 0 → normalize_confidence v = 0) ∧
    (∀ v : ℚ, 0 < v → v ≤ 1 → normalize_confidence v = v) ∧
    (∀ v : ℚ, 1 < v → normalize_confidence v = v / 100) ∧
    (∀ p : ProviderVerdict, (wkey p).conf = normalize_confidence p.confidence) ∧
    (∀ (l : List ProviderVerdict) (policy : String) (sel : Option ProviderVerdict)
      (r : VerdictPolicyResult),
      select_deterministic l policy = .ok sel →
      evaluate_verdict_policy l policy = .ok r →
        r.providers = l ∧
        r.selected_confidence = sel.map (fun p => normalize_confidence p.confidence) ∧
        r.needs_human = ((split_pass_concerns l).1 &&
          ratLtB ((split_pass_concerns l).2.getD 0) concerns_needs_human_threshold)) ∧
    (∀ l : List ProviderVerdict,
      (split_pass_concerns l).2 = none ∨
        (split_pass_concerns l).2 = some (concernsMaxConf l)) := by
  refine ⟨?_, ?_, ?_, fun p => rfl, ?_, ?_⟩
  · intro v h
    have hb : ratLtB 0 v = false := (ratLtB_false_iff 0 v).mpr h
    simp [normalize_confidence, hb]
  · intro v h0 h1
    have hb0 : ratLtB 0 v = true := (ratLtB_iff 0 v).mpr h0
    have hb1 : ratLtB 1 v = false := (ratLtB_false_iff 1 v).mpr h1
    simp [normalize_confidence, hb0, hb1]
  · intro v h1
    have hb0 : ratLtB 0 v = true := (ratLtB_iff 0 v).mpr (zero_lt_one.trans h1)
    have hb1 : ratLtB 1 v = true := (ratLtB_iff 1 v).mpr h1
    simp [normalize_confidence, hb0, hb1]
  · intro l policy sel r hsel heval
    obtain ⟨r2, hr2, hprov, _, _, _, hnh, _, _, _, hselconf⟩ :=
      evaluate_fields l policy sel hsel
    rw [heval] at hr2
    have := Except.ok.inj hr2
    subst this
    exact ⟨hprov, hselconf, hnh⟩
  · intro l
    unfold split_pass_concerns
    by_cases h : l.isEmpty
    · rw [if_pos h]
      left
      rfl
    · rw [if_neg h]
      by_cases h2 : ((l.map fun p => classify_verdict p.verdict).contains "pass" &&
          (l.map fun p => classify_verdict p.verdict).contains "concerns") = true
      · rw [if_pos h2]
        right
        rfl
      · rw [if_neg h2]
        left
        rfl

/-- C9 (witness): the normalization cases and the field equations applied at
concrete inputs. -/
theorem c9_witness :
    normalize_confidence (-1) = 0 ∧
    normalize_confidence (mkRat 1 2) = mkRat 1 2 ∧
    normalize_confidence 85 = 85 / 100 ∧
    ((split_pass_concerns ([] : List ProviderVerdict)).2 = none ∨
      (split_pass_concerns ([] : List ProviderVerdict)).2 =
        some (concernsMaxConf [])) := by
  refine ⟨?_, ?_, ?_, ?_⟩
  · exact c9_confidence_normalization.1 (-1) (by norm_num)
  · exact c9_confidence_normalization.2.1 (mkRat 1 2) (by norm_num [Rat.mkRat_eq_divInt, Rat.divInt_eq_div]) (by norm_num [Rat.mkRat_eq_divInt, Rat.divInt_eq_div])
  · exact c9_confidence_normalization.2.2.1 85 (by norm_num)
  · exact c9_confidence_normalization.2.2.2.2.2 []

end VerdictPolicy

namespace StructuredOutput

/-- C2 (counterexample): a raw text failing the first validation with no
repair callback yields `error_stage = "validation"`, not
`"repair_unavailable"` as the claim states. -/
theorem c2_counterexample :
    (parse_structured_output "x"
        (⟨"schema", fun _ => Except.error "boom"⟩ : SchemaModel Nat)
        none 1).1.error_stage = some "validation" ∧
    (parse_structured_output "x"
        (⟨"schema", fun _ => Except.error "boom"⟩ : SchemaModel Nat)
        none 1).1.error_stage ≠ some "repair_unavailable" := by
  constructor
  · rfl
  · decide

/-- C2 (amended): when the first validation fails and no repair callback is
supplied, `parse` returns a payload-free result with
`error_stage = "validation"` carrying the first error detail, zero repair
attempts used, and makes no repair call. -/
theorem c2_no_repair_gives_validation_stage {T : Type} :
    ∀ (m : SchemaModel T) (content : String) (k : Int) (d : String),
      m.validate content = .error d →
      parse_structured_output content m none k =
        (⟨none, none, some "validation", some d, 0⟩, 0) := by
  intro m content k d hv
  unfold parse_structured_output
  rw [hv]
  rfl

/-- C2 (witness): the amended statement at a concrete failing input. -/
theorem c2_witness :
    parse_structured_output "x"
        (⟨"schema", fun _ => Except.error "boom"⟩ : SchemaModel Nat) none 7 =
      (⟨none, none, some "validation", some "boom", 0⟩, 0) :=
  c2_no_repair_gives_validation_stage
    (⟨"schema", fun _ => Except.error "boom"⟩ : SchemaModel Nat) "x" 7 "boom" rfl

/-- C3: however large the attempt budget, one `parse` invokes the repair
callback at most once — at most 2 LLM calls in total — and the recorded
`repair_attempts_used` never exceeds 1. -/
theorem c3_repair_bounded {T : Type} :
    ∀ (content : String) (m : SchemaModel T) (repair : Option RepairFn) (k : Int),
      (parse_structured_output content m repair k).2 ≤ 1 ∧
      (parse_structured_output content m repair k).1.repair_attempts_used ≤ 1 ∧
      1 + (parse_structured_output content m repair k).2 ≤ 2 := by
  intro content m repair k
  unfold parse_structured_output
  cases hv : m.validate content with
  | ok p => simp
  | error d =>
    dsimp only
    unfold invoke_repair_loop
    cases repair with
    | none => simp
    | some r =>
      dsimp only
      by_cases hk : clamp_repair_attempts k = 0
      · rw [if_pos hk]
        simp
      · rw [if_neg hk]
        cases hr : r m.schema_text d content with
        | none => simp
        | some s =>
          dsimp only
          by_cases hs : s = ""
          · rw [if_pos hs]
            simp
          · rw [if_neg hs]
            cases hvs : m.validate s with
            | ok p => simp
            | error d2 => simp

/-- C5: the returned payload is present exactly when `error_stage` is `none`;
in every error stage (`validation`, `repair_unavailable`, `repair_validation`)
the payload is absent. -/
theorem c5_payload_iff_no_error_stage {T : Type} :
    ∀ (content : String) (m : SchemaModel T) (repair : Option RepairFn) (k : Int),
      ((parse_structured_output content m repair k).1.payload.isSome ↔
        (parse_structured_output content m repair k).1.error_stage = none) ∧
      ((parse_structured_output content m repair k).1.error_stage = some "validation" ∨
        (parse_structured_output content m repair k).1.error_stage =
          some "repair_unavailable" ∨
        (parse_structured_output content m repair k).1.error_stage =
          some "repair_validation" →
        (parse_structured_output content m repair k).1.payload = none) := by
  intro content m repair k
  unfold parse_structured_output
  cases hv : m.validate content with
  | ok p => simp
  | error d =>
    dsimp only
    unfold invoke_repair_loop
    cases repair with
    | none => simp
    | some r =>
      dsimp only
      by_cases hk : clamp_repair_attempts k = 0
      · rw [if_pos hk]
        simp
      · rw [if_neg hk]
        cases hr : r m.schema_text d content with
        | none => simp
        | some s =>
          dsimp only
          by_cases hs : s = ""
          · rw [if_pos hs]
            simp
          · rw [if_neg hs]
            cases hvs : m.validate s with
            | ok p => simp
            | error d2 => simp

/-- C5 (witness): the payload–stage invariant applied at a concrete failing
input, discharging the error-stage hypothesis. -/
theorem c5_witness :
    (parse_structured_output "x"
        (⟨"schema", fun _ => Except.error "boom"⟩ : SchemaModel Nat)
        none 1).1.payload = none :=
  (c5_payload_iff_no_error_stage "x"
      (⟨"schema", fun _ => Except.error "boom"⟩ : SchemaModel Nat) none 1).2
    (Or.inl rfl)

end StructuredOutput

theorem ratMax_le (a b c : ℚ) (h1 : a ≤ c) (h2 : b ≤ c) : ratMax a b ≤ c := by
  rw [ratMax_eq]
  exact max_le h1 h2

namespace LlmProvider

theorem rule_step_le (fire : Bool) (cap c : ℚ) : rule_step fire cap c ≤ c := by
  cases fire
  · simp [rule_step]
  · simp [rule_step]
    exact ratMin_le_left c cap

theorem clamp01_le (raw : ℚ) (h : 0 ≤ raw) : clamp01 raw ≤ raw := by
  unfold clamp01
  exact ratMax_le _ _ _ h (ratMin_le_right 1 raw)

theorem calibration_rules_fst_le (raw : ℚ) (completed in_progress : Nat)
    (q : SessionQualityContext) (reasoning : String) :
    (calibration_rules raw completed in_progress q reasoning).1 ≤ clamp01 raw := by
  unfold calibration_rules
  dsimp only
  exact
    le_trans (rule_step_le _ _ _)
      (le_trans (rule_step_le _ _ _)
        (le_trans (rule_step_le _ _ _) (rule_step_le _ _ _)))

theorem quality_caps_default (dq : String) (h1 : dq ≠ "high") (h2 : dq ≠ "medium")
    (h3 : dq ≠ "low") (h4 : dq ≠ "minimal") : quality_caps dq = 1 / 2 := by
  unfold quality_caps
  rw [if_neg h1, if_neg h2, if_neg h3, if_neg h4, Rat.mkRat_eq_divInt,
    Rat.divInt_eq_div]
  norm_num

/-- C6 (counterexample): a negative raw confidence is clamped up to 0, so the
adjusted confidence exceeds the raw one, refuting "adjusted ≤ raw for every
raw value". -/
theorem c6_counterexample :
    (validate_confidence (mkRat (-1) 2) 0 0 none "").1 = 0 ∧
    ¬(validate_confidence (mkRat (-1) 2) 0 0 none "").1 ≤ mkRat (-1) 2 := by
  have h0 : (validate_confidence (mkRat (-1) 2) 0 0 none "").1 = 0 := by decide
  refine ⟨h0, ?_⟩
  rw [h0, Rat.mkRat_eq_divInt, Rat.divInt_eq_div]
  norm_num

/-- C6 (amended): for every non-negative raw confidence the calibrator only
lowers the value (each rule is a downward cap after the initial clamp), and
the spec's concrete example (raw 0.9, no tasks, work evidence, high data
quality, long analysis text, empty reasoning) is capped at 0.3. -/
theorem c6_calibration_monotone :
    (∀ (raw : ℚ) (completed in_progress : Nat)
      (qc : Option SessionQualityContext) (reasoning : String),
      0 ≤ raw →
      (validate_confidence raw completed in_progress qc reasoning).1 ≤ raw) ∧
    (validate_confidence (mkRat 9 10) 0 0
      (some { has_work_evidence := true, data_quality := "high",
              analysis_text_length := 500 }) "").1 ≤ 3 / 10 := by
  constructor
  · intro raw completed in_progress qc reasoning h
    unfold validate_confidence
    cases qc with
    | none => exact clamp01_le raw h
    | some q =>
      dsimp only
      have hc : (calibration_rules raw completed in_progress q reasoning).1 ≤ raw :=
        le_trans (calibration_rules_fst_le _ _ _ _ _) (clamp01_le raw h)
      by_cases hf : ratLtB (quality_caps q.data_quality)
          (calibration_rules raw completed in_progress q reasoning).1 = true
      · rw [if_pos hf]
        exact le_trans (le_of_lt ((ratLtB_iff _ _).mp hf)) hc
      · rw [if_neg hf]
        exact hc
  · have he : (validate_confidence (mkRat 9 10) 0 0
        (some { has_work_evidence := true, data_quality := "high",
                analysis_text_length := 500 }) "").1 = mkRat 3 10 := by decide
    rw [he, Rat.mkRat_eq_divInt, Rat.divInt_eq_div]
    norm_num

/-- C6 (witness): the amended monotonicity statement applied at raw = 0.9
with no quality context. -/
theorem c6_witness :
    (validate_confidence (mkRat 9 10) 0 0 none "").1 ≤ mkRat 9 10 :=
  c6_calibration_monotone.1 (mkRat 9 10) 0 0 none ""
    (by rw [Rat.mkRat_eq_divInt, Rat.divInt_eq_div]; norm_num)

/-- C10: every data-quality string other than the four known tiers (including
the default "unknown") caps the final confidence at 0.5, and the final rule
appends its warning exactly when the cap actually lowers the running value. -/
theorem c10_quality_cap_default :
    (∀ dq : String, dq ≠ "high" → dq ≠ "medium" → dq ≠ "low" → dq ≠ "minimal" →
      quality_caps dq = 1 / 2) ∧
    (∀ (raw : ℚ) (completed in_progress : Nat) (q : SessionQualityContext)
      (reasoning : String),
      q.data_quality ≠ "high" → q.data_quality ≠ "medium" →
      q.data_quality ≠ "low" → q.data_quality ≠ "minimal" →
      (validate_confidence raw completed in_progress (some q) reasoning).1 ≤ 1 / 2) ∧
    (∀ (raw : ℚ) (completed in_progress : Nat) (q : SessionQualityContext)
      (reasoning : String),
      (quality_caps q.data_quality <
          (calibration_rules raw completed in_progress q reasoning).1 →
        validate_confidence raw completed in_progress (some q) reasoning =
          (quality_caps q.data_quality,
            (calibration_rules raw completed in_progress q reasoning).2 ++
              [rule5_warning raw (quality_caps q.data_quality) q])) ∧
      (¬quality_caps q.data_quality <
          (calibration_rules raw completed in_progress q reasoning).1 →
        validate_confidence raw completed in_progress (some q) reasoning =
          calibration_rules raw completed in_progress q reasoning)) := by
  refine ⟨quality_caps_default, ?_, ?_⟩
  · intro raw completed in_progress q reasoning h1 h2 h3 h4
    have hcap := quality_caps_default q.data_quality h1 h2 h3 h4
    unfold validate_confidence
    dsimp only
    by_cases hf : ratLtB (quality_caps q.data_quality)
        (calibration_rules raw completed in_progress q reasoning).1 = true
    · rw [if_pos hf]
      exact le_of_eq hcap
    · rw [if_neg hf]
      have := (ratLtB_false_iff _ _).mp (by
        cases hb : ratLtB (quality_caps q.data_quality)
            (calibration_rules raw completed in_progress q reasoning).1 with
        | false => rfl
        | true => exact absurd hb hf)
      rw [hcap] at this
      exact this
  · intro raw completed in_progress q reasoning
    constructor
    · intro h
      have hb : ratLtB (quality_caps q.data_quality)
          (calibration_rules raw completed in_progress q reasoning).1 = true :=
        (ratLtB_iff _ _).mpr h
      unfold validate_confidence
      dsimp only
      rw [if_pos hb]
    · intro h
      have hb : ratLtB (quality_caps q.data_quality)
          (calibration_rules raw completed in_progress q reasoning).1 = false :=
        (ratLtB_false_iff _ _).mpr (not_lt.mp h)
      unfold validate_confidence
      dsimp only
      rw [if_neg (by rw [hb]; exact Bool.false_ne_true)]

/-- C10 (witness): the default quality context ("unknown" tier) at raw 1.0. -/
theorem c10_witness :
    quality_caps "unknown" = 1 / 2 ∧
    (validate_confidence 1 0 0 (some {}) "").1 ≤ 1 / 2 :=
  ⟨c10_quality_cap_default.1 "unknown" (by decide) (by decide) (by decide) (by decide),
   c10_quality_cap_default.2.1 1 0 0 {} "" (by decide) (by decide) (by decide)
     (by decide)⟩

end LlmProvider

theorem append_ne_empty_of_left (a b : String) (h : a.data ≠ []) : a ++ b ≠ "" := by
  intro he
  have hd := congrArg String.data he
  rw [String.data_append] at hd
  exact h (List.append_eq_nil.mp hd).1

namespace LlmProvider

theorem chain_analyze_aux_exhausted {A : Type} :
    ∀ (ps : List (MProvider A)),
      (∀ p ∈ ps, p.available = true → ∃ e, p.run = .error e) →
      ∀ lastError : Option String,
        ∃ msg, chain_analyze_aux ps lastError = .error msg ∧ msg ≠ "" := by
  intro ps
  induction ps with
  | nil =>
    intro _ lastError
    cases lastError with
    | none => exact ⟨_, rfl, by decide⟩
    | some e =>
      exact ⟨_, rfl, append_ne_empty_of_left _ _ (by decide)⟩
  | cons p t ih =>
    intro hall lastError
    simp only [chain_analyze_aux]
    by_cases hav : p.available = true
    · obtain ⟨e, he⟩ := hall p (List.mem_cons_self p t) hav
      rw [if_pos hav, he]
      exact ih (fun x hx hxa => hall x (List.mem_cons_of_mem p hx) hxa) (some e)
    · rw [if_neg hav]
      exact ih (fun x hx hxa => hall x (List.mem_cons_of_mem p hx) hxa) lastError

/-- C8 (counterexample): with no providers available at all, the chain raises
`RuntimeError("No providers available")` (modelled as `Except.error`) instead
of returning an "unavailable" result value. -/
theorem c8_counterexample :
    chain_analyze ([] : List (MProvider Nat)) = .error "No providers available" := rfl

/-- C8 (amended): when every available provider in the chain fails (or none
is available), `analyze_completion` raises a `RuntimeError` carrying a
non-empty human-readable message — it never returns a fabricated analysis. -/
theorem c8_exhausted_chain_raises {A : Type} :
    ∀ ps : List (MProvider A),
      (∀ p ∈ ps, p.available = true → ∃ e, p.run = .error e) →
      ∃ msg, chain_analyze ps = .error msg ∧ msg ≠ "" := by
  intro ps hall
  exact chain_analyze_aux_exhausted ps hall none

/-- C8 (witness): a chain with one failing available provider and one
unavailable provider raises with a non-empty message. -/
theorem c8_witness :
    ∃ msg,
      chain_analyze
          [(⟨true, Except.error "401"⟩ : MProvider Nat), ⟨false, Except.ok 7⟩] =
        .error msg ∧ msg ≠ "" :=
  c8_exhausted_chain_raises
    [⟨true, Except.error "401"⟩, ⟨false, Except.ok 7⟩]
    (by
      intro p hp hav
      rcases List.mem_cons.mp hp with h | h
      · subst h
        exact ⟨"401", rfl⟩
      · rcases List.mem_cons.mp h with h2 | h2
        · subst h2
          simp at hav
        · simp at h2)

end LlmProvider

namespace LangchainClient

theorem auto_select_eq_find (env : ClientEnv) (mo : Option String) :
    ∀ slots : List SlotDefinition,
      auto_select env mo slots =
        (slots.find? (cred_ok env)).map
          (fun slot => ⟨slot.provider, slot_model_for mo slot⟩) := by
  intro slots
  induction slots with
  | nil => rfl
  | cons s t ih =>
    simp only [auto_select]
    by_cases h1 : s.provider = "openai" ∧ truthy env.openai_token = true
    · rw [if_pos h1]
      have hc : cred_ok env s = true := by
        simp [cred_ok, h1.1, h1.2]
      rw [List.find?_cons_of_pos _ hc]
      simp [h1.1]
    · rw [if_neg h1]
      by_cases h2 : s.provider = "anthropic" ∧ truthy env.anthropic_token = true ∧
          env.anthropic_importable = true
      · rw [if_pos h2]
        have hc : cred_ok env s = true := by
          simp [cred_ok, h2.1, h2.2.1, h2.2.2]
        rw [List.find?_cons_of_pos _ hc]
        simp [h2.1]
      · rw [if_neg h2]
        by_cases h3 : s.provider = "github-models" ∧ truthy env.github_token = true
        · rw [if_pos h3]
          have hc : cred_ok env s = true := by
            simp [cred_ok, h3.1, h3.2]
          rw [List.find?_cons_of_pos _ hc]
          simp [h3.1]
        · rw [if_neg h3]
          have hc : cred_ok env s = false := by
            cases hcb : cred_ok env s with
            | false => rfl
            | true =>
              simp only [cred_ok, Bool.or_eq_true, Bool.and_eq_true, beq_iff_eq] at hcb
              rcases hcb with (⟨hp, ht⟩ | ⟨⟨hp, ht⟩, hi⟩) | ⟨hp, ht⟩
              · exact absurd ⟨hp, ht⟩ h1
              · exact absurd ⟨hp, ht, hi⟩ h2
              · exact absurd ⟨hp, ht⟩ h3
          rw [List.find?_cons_of_neg _ (by rw [hc]; exact Bool.false_ne_true)]
          exact ih

theorem build_chat_client_auto (env : ClientEnv) (slots : List SlotDefinition)
    (model : Option String)
    (himp : env.openai_importable = true) (henv : env.env_provider = none) :
    build_chat_client env slots model none false =
      (slots.find? (cred_ok env)).map
        (fun slot =>
          ⟨slot.provider, slot_model_for (firstTruthy model env.env_model) slot⟩) := by
  unfold build_chat_client
  have h1 : (!env.openai_importable) ≠ true := by
    rw [himp]
    decide
  rw [if_neg h1]
  by_cases htok : (!truthy env.github_token && !truthy env.openai_token &&
      !truthy env.anthropic_token) = true
  · rw [if_pos htok]
    have hconj := htok
    simp only [Bool.and_eq_true, Bool.not_eq_true'] at hconj
    obtain ⟨⟨hg, ho⟩, ha⟩ := hconj
    have hnone : slots.find? (cred_ok env) = none := by
      rw [List.find?_eq_none]
      intro x hx hcx
      simp only [cred_ok, Bool.or_eq_true, Bool.and_eq_true, beq_iff_eq] at hcx
      rcases hcx with (⟨_, ht⟩ | ⟨⟨_, ht⟩, _⟩) | ⟨_, ht⟩
      · rw [ho] at ht
        exact Bool.false_ne_true ht
      · rw [ha] at ht
        exact Bool.false_ne_true ht
      · rw [hg] at ht
        exact Bool.false_ne_true ht
    rw [hnone]
    rfl
  · rw [if_neg htok]
    have hrp : resolve_provider none false env = (none, false) := by
      unfold resolve_provider
      rw [henv]
      rfl
    rw [hrp]
    dsimp only
    rw [if_neg (by simp)]
    rw [if_neg (by simp)]
    rw [if_neg (by simp)]
    rw [if_neg (by simp)]
    exact auto_select_eq_find env (firstTruthy model env.env_model) slots

/-- C7: with no explicit provider request, backend resolution walks the slot
list in order, skips every slot whose provider lacks a credential, and binds
to the first credentialed slot; for slots `[A, B, C]` with only B and C
credentialed it returns a handle bound to B. -/
theorem c7_slot_fallback_order :
    (∀ (env : ClientEnv) (slots : List SlotDefinition) (model : Option String),
      env.openai_importable = true → env.env_provider = none →
      build_chat_client env slots model none false =
        (slots.find? (cred_ok env)).map
          (fun slot =>
            ⟨slot.provider, slot_model_for (firstTruthy model env.env_model) slot⟩)) ∧
    (∀ (env : ClientEnv) (a b c : SlotDefinition) (model : Option String),
      env.openai_importable = true → env.env_provider = none →
      cred_ok env a = false → cred_ok env b = true →
      build_chat_client env [a, b, c] model none false =
        some ⟨b.provider, slot_model_for (firstTruthy model env.env_model) b⟩) := by
  refine ⟨build_chat_client_auto, ?_⟩
  intro env a b c model himp henv hca hcb
  rw [build_chat_client_auto env [a, b, c] model himp henv]
  rw [List.find?_cons_of_neg _ (by rw [hca]; exact Bool.false_ne_true)]
  rw [List.find?_cons_of_pos _ hcb]
  rfl

/-- C7 (witness): slots `[A, B, C]` bound to openai/anthropic/github-models
with credentials only for B's and C's providers resolve to B. -/
theorem c7_witness :
    build_chat_client
        { github_token := some "g", openai_token := none, anthropic_token := some "t",
          env_provider := none, env_model := none,
          openai_importable := true, anthropic_importable := true }
        [⟨"A", "openai", "m1"⟩, ⟨"B", "anthropic", "m2"⟩, ⟨"C", "github-models", "m3"⟩]
        none none false =
      some ⟨"anthropic", "m2"⟩ :=
  (c7_slot_fallback_order.2
      { github_token := some "g", openai_token := none, anthropic_token := some "t",
        env_provider := none, env_model := none,
        openai_importable := true, anthropic_importable := true }
      ⟨"A", "openai", "m1"⟩ ⟨"B", "anthropic", "m2"⟩ ⟨"C", "github-models", "m3"⟩
      none rfl rfl (by decide) (by decide)).trans (by decide)

end LangchainClient
